import Mathlib

/-!
Shallow embedding of the Oil & Gas news chatbot's core logic
(`src/ml/chatbot.py`, `src/ml/semantic_embeddings.py`,
`src/ml/text_classifier.py`) and proofs about the ranking engine, the
incremental embedding pipeline, the classifier training gate and the
artifact-loading error paths.

Modelling conventions:
* floats are modelled as rationals (`ℚ`); all score arithmetic in the
  source is plain +, min and comparison, which ℚ models exactly;
* the opaque ML black boxes (`SentenceTransformer.encode`,
  `cosine_similarity`, the fitted sklearn model, `hashlib.md5`) are
  parameters: a search run receives the per-article cosine-similarity
  vector that `cosine_similarity([query_embedding], embeddings)[0]`
  produced, the pipeline receives an `embed` function, the hasher an
  `md5` function;
* `pandas` timestamps are modelled as integer epoch seconds;
  `timedelta.days` floors towards negative infinity, i.e. `Int.fdiv`;
  a `NaT` / unparseable date is `Option.none` (the `date` column is
  parsed once with `errors='coerce'` at load time);
* `numpy.argsort` (ascending, with `[::-1]` reversal) and Python's
  stable `list.sort(reverse=True)` are modelled with the stable
  `List.insertionSort`;
* Python dicts keyed by hash are association lists where the most
  recent assignment is consed to the front (so `lookup` sees the last
  write, as a dict does).
-/

namespace OGC

/-- Python's `needle in hay` substring test. -/
def containsSub (hay needle : String) : Bool :=
  hay.data.tails.any (fun t => needle.data.isPrefixOf t)

/-- Python's `str.lower()` (the data in play is ASCII, where
`Char.toLower` agrees with it). -/
def strToLower (s : String) : String := String.mk (s.data.map Char.toLower)

/-! ## Search ranker (`OilGasChatbot.search_articles`, chatbot.py lines 83-205) -/

/-- One row of the Article Store (`articles.csv` after `load_models`
parsed the `date` column with `errors='coerce'`; `none` = missing or
unparseable date, i.e. `NaT`). -/
structure Article where
  title : String
  content : String
  date : Option Int
  source : String
  link : String
deriving DecidableEq

/-- One entry of the `candidates` list built by the first pass. -/
structure Candidate where
  idx : Nat
  row : Article
  score : ℚ
  articleDate : Option Int
  contentLower : String
deriving DecidableEq

/-- One result record returned by `search_articles`.  `idx` records which
Article Store row the record was built from (in the source it is implicit
in which candidate produced the dict). -/
structure ResultRecord where
  idx : Nat
  title : String
  content : String
  date : Option Int
  source : String
  link : String
  score : ℚ
  original_score : ℚ
  recency_boost : ℚ
  keyword_boost : ℚ
deriving DecidableEq

/-- chatbot.py line 105: terms required for a "rig count" query. -/
def rigCountTerms : List String :=
  ["rig count", "active rigs", "rigs fell", "rigs rose"]

/-- chatbot.py line 109: terms required for an oil-price query. -/
def oilPriceTerms : List String :=
  ["brent", "wti", "barrel", "oil price", "crude price", "oil fell",
   "oil rose", "oil gained", "oil dropped"]

/-- chatbot.py line 113: terms required for an OPEC query. -/
def opecTerms : List String := ["opec", "opec+"]

/-- chatbot.py lines 100-113: the `required_terms` list accumulated from
the topic gates the lowercased query activates. -/
def requiredTerms (queryLower : String) : List String :=
  (if containsSub queryLower "rig count" then rigCountTerms else [])
    ++ (if (containsSub queryLower "price" || containsSub queryLower "cost")
          && (containsSub queryLower "oil" || containsSub queryLower "crude"
              || containsSub queryLower "brent" || containsSub queryLower "wti")
        then oilPriceTerms else [])
    ++ (if containsSub queryLower "opec" then opecTerms else [])

/-- chatbot.py lines 136-138: `matches_required`. -/
def gatePass (required : List String) (contentLower : String) : Bool :=
  required.isEmpty || required.any (fun t => containsSub contentLower t)

/-- chatbot.py line 149: `(now - article_date).days`, which floors. -/
def daysOld (now d : Int) : Int := (now - d).fdiv 86400

/-- chatbot.py line 151: the 7-day recency-window test. -/
def withinWindow (now d : Int) : Bool := daysOld now d ≤ 7

/-- chatbot.py lines 144-156: update of `most_recent_date` /
`most_recent_idx` for one candidate. -/
def updateRecent (now : Int) (idx : Nat) (dateOpt mrD : Option Int)
    (mrI : Option Nat) : Option Int × Option Nat :=
  match dateOpt with
  | none => (mrD, mrI)
  | some d =>
    if withinWindow now d then
      match mrD with
      | none => (some d, some idx)
      | some m => if m < d then (some d, some idx) else (mrD, mrI)
    else (mrD, mrI)

/-- chatbot.py lines 126-164: the first pass over `top_indices`, building
the candidate list and tracking the most recent dated candidate. -/
def firstPass (articles : List Article) (sims : List ℚ) (required : List String)
    (now : Int) : List Nat → Option Int → Option Nat →
    List Candidate × Option Int × Option Nat
  | [], mrD, mrI => ([], mrD, mrI)
  | idx :: rest, mrD, mrI =>
    if h : idx < articles.length then
      let row := articles.get ⟨idx, h⟩
      let contentLower := strToLower row.content
      if gatePass required contentLower then
        let p := updateRecent now idx row.date mrD mrI
        let r := firstPass articles sims required now rest p.1 p.2
        (⟨idx, row, sims.getD idx 0, row.date, contentLower⟩ :: r.1, r.2)
      else firstPass articles sims required now rest mrD mrI
    else firstPass articles sims required now rest mrD mrI

/-- chatbot.py line 173: the stop-word set. -/
def stopWords : List String :=
  ["the", "and", "for", "are", "but", "not", "you", "all", "can", "had",
   "her", "was", "one", "our", "out", "has", "have", "been", "were", "they",
   "this", "that", "with", "from", "what", "about", "which", "when", "there",
   "their", "will", "each", "make", "how", "like", "just", "over", "such",
   "into", "than", "them", "then", "now", "news", "latest", "recent",
   "today", "tell", "give", "show"]

/-- A regex word character (`\w`): the tokenizer splits the query into
maximal runs of these. -/
def isWordChar (c : Char) : Bool := c.isAlphanum || c = '_'

/-- A character matched by `[a-z]`. -/
def isLowerAlpha (c : Char) : Bool := 'a' ≤ c && c ≤ 'z'

/-- Maximal runs of word characters in a character list (the accumulator
holds the current run reversed). -/
def wordRuns : List Char → List Char → List (List Char)
  | [], acc => if acc.isEmpty then [] else [acc.reverse]
  | c :: cs, acc =>
    if isWordChar c then wordRuns cs (c :: acc)
    else if acc.isEmpty then wordRuns cs []
    else acc.reverse :: wordRuns cs []

/-- chatbot.py lines 171-174: `re.findall(r'\b[a-z]{3,}\b', query_lower)`
collected into a set, minus the stop words.  A `\b`-delimited `[a-z]{3,}`
match is exactly a maximal word-character run that is all lowercase
letters and at least 3 long; the set is modelled as a deduplicated list. -/
def queryKeywords (queryLower : String) : List String :=
  (((wordRuns queryLower.data []).filter
      (fun r => 3 ≤ r.length && r.all isLowerAlpha)).map
        (fun r => String.mk r)).dedup.filter (fun w => !stopWords.contains w)

/-- chatbot.py lines 183-184: `keyword_boost`, +0.05 per distinct query
keyword found in the candidate's content, capped at 0.20. -/
def keywordBoost (keywords : List String) (contentLower : String) : ℚ :=
  min (20/100)
    ((keywords.countP (fun kw => containsSub contentLower kw) : ℚ) * (5/100))

/-- chatbot.py lines 177-201: one result record of the second pass. -/
def buildResult (mrI : Option Nat) (keywords : List String)
    (c : Candidate) : ResultRecord :=
  let kb := keywordBoost keywords c.contentLower
  let rb : ℚ := if mrI = some c.idx then 10/100 else 0
  { idx := c.idx, title := c.row.title, content := c.row.content,
    date := c.row.date, source := c.row.source, link := c.row.link,
    score := min 1 (c.score + rb + kb), original_score := c.score,
    recency_boost := rb, keyword_boost := kb }

/-- chatbot.py line 116: `np.argsort(similarities)[::-1]`.  numpy's
default `kind='quicksort'` is unstable for equal keys, so the program
fixes no particular order among equal similarities; an executable model
must pick one deterministic resolution, and this one picks a stable
ascending sort, reversed (what numpy's small-array insertion-sort path
produces).  Theorems must not rely on this tie order: only the
"descending by similarity" shape of the output is a property of the
program. -/
def argsortDesc (sims : List ℚ) : List Nat :=
  (List.insertionSort (fun i j => sims.getD i 0 ≤ sims.getD j 0)
    (List.range sims.length)).reverse

/-- chatbot.py line 116: the candidate pool `top_indices` (`top_k * 5`
best base scores). -/
def topIndices (sims : List ℚ) (top_k : Nat) : List Nat :=
  (argsortDesc sims).take (top_k * 5)

/-- The first pass as invoked by `search_articles` (accumulators start at
`None`). -/
def searchFirstPass (articles : List Article) (sims : List ℚ) (now : Int)
    (query : String) (top_k : Nat) :
    List Candidate × Option Int × Option Nat :=
  firstPass articles sims (requiredTerms (strToLower query)) now
    (topIndices sims top_k) none none

/-- chatbot.py lines 177-201: the full unsorted `results` list. -/
def searchResultsAll (articles : List Article) (sims : List ℚ) (now : Int)
    (query : String) (top_k : Nat) : List ResultRecord :=
  let fp := searchFirstPass articles sims now query top_k
  fp.1.map (buildResult fp.2.2 (queryKeywords (strToLower query)))

/-- chatbot.py lines 83-205: `search_articles` after models are loaded.
`sims` is the cosine-similarity row for the query against the stored
embedding matrix (one entry per embedding row); `now` is
`datetime.now()`. -/
def search_articles (articles : List Article) (sims : List ℚ) (now : Int)
    (query : String) (top_k : Nat) : List ResultRecord :=
  if sims.length == 0 || articles.length == 0 then []
  else if (searchFirstPass articles sims now query top_k).1.isEmpty then []
  else
    (List.insertionSort (fun a b : ResultRecord => b.score ≤ a.score)
      (searchResultsAll articles sims now query top_k)).take top_k

/-! ## Lemmas about the stable sort -/

/-- Inserting `a` into a list that is pairwise `le`-sorted with ties
respecting `P`, where `P a c` holds against every element, keeps that
shape: `orderedInsert` places `a` before the first element it is
`le`-related to, hence after exactly the strictly greater ones. -/
theorem orderedInsert_pairwise {α : Type} (le : α → α → Prop) [DecidableRel le]
    (total : ∀ a b, le a b ∨ le b a) (htrans : ∀ {a b c}, le a b → le b c → le a c)
    (P : α → α → Prop) (a : α) (s : List α)
    (hs : s.Pairwise (fun x y => le x y ∧ (le y x → P x y)))
    (ha : ∀ c ∈ s, P a c) :
    (List.orderedInsert le a s).Pairwise (fun x y => le x y ∧ (le y x → P x y)) := by
  induction s with
  | nil => simp [List.orderedInsert]
  | cons b t ih =>
    rw [List.orderedInsert]
    rcases List.pairwise_cons.mp hs with ⟨hb, ht⟩
    by_cases h : le a b
    · rw [if_pos h]
      refine List.pairwise_cons.mpr ⟨?_, hs⟩
      intro c hc
      rcases List.mem_cons.mp hc with rfl | hc
      · exact ⟨h, fun _ => ha c (List.mem_cons_self c t)⟩
      · exact ⟨htrans h (hb c hc).1, fun _ => ha c (List.mem_cons_of_mem _ hc)⟩
    · rw [if_neg h]
      refine List.pairwise_cons.mpr ⟨?_, ih ht fun c hc => ha c (List.mem_cons_of_mem _ hc)⟩
      intro c hc
      rcases (List.mem_orderedInsert le).mp hc with rfl | hc
      · exact ⟨(total c b).resolve_left h, fun hab => absurd hab h⟩
      · exact hb c hc

/-- Stability of the sort: sorting a `Pairwise P` list with a total,
transitive `le` yields a list pairwise in `le` in which ties (pairs
related by `le` both ways) still satisfy `P` in output order. -/
theorem insertionSort_pairwise {α : Type} (le : α → α → Prop) [DecidableRel le]
    (total : ∀ a b, le a b ∨ le b a) (htrans : ∀ {a b c}, le a b → le b c → le a c)
    (P : α → α → Prop) (l : List α) (h : l.Pairwise P) :
    (List.insertionSort le l).Pairwise (fun x y => le x y ∧ (le y x → P x y)) := by
  induction l with
  | nil => simp
  | cons a t ih =>
    rw [List.insertionSort]
    rcases List.pairwise_cons.mp h with ⟨hat, ht⟩
    refine orderedInsert_pairwise le total htrans P a _ (ih ht) ?_
    intro c hc
    exact hat c ((List.perm_insertionSort le t).mem_iff.mp hc)

/-! ## Lemmas about the first pass -/

/-- Shape of every collected candidate: it is a real Article Store row,
its cached fields agree with that row, and it passed the required-term
gate. -/
theorem firstPass_mem (articles : List Article) (sims : List ℚ)
    (required : List String) (now : Int) (l : List Nat)
    (mrD : Option Int) (mrI : Option Nat) :
    ∀ c ∈ (firstPass articles sims required now l mrD mrI).1,
      ∃ h : c.idx < articles.length,
        c.row = articles.get ⟨c.idx, h⟩ ∧
        c.score = sims.getD c.idx 0 ∧
        c.articleDate = c.row.date ∧
        c.contentLower = strToLower c.row.content ∧
        gatePass required c.contentLower = true := by
  induction l generalizing mrD mrI with
  | nil => intro c hc; simp [firstPass] at hc
  | cons idx rest ih =>
    intro c hc
    rw [firstPass] at hc
    by_cases h : idx < articles.length
    · simp only [dif_pos h] at hc
      by_cases hg : gatePass required (strToLower (articles.get ⟨idx, h⟩).content) = true
      · simp only [hg, if_true] at hc
        rcases List.mem_cons.mp hc with rfl | hc
        · exact ⟨h, rfl, rfl, rfl, rfl, hg⟩
        · exact ih _ _ c hc
      · simp only [Bool.not_eq_true] at hg
        simp only [hg, if_false] at hc
        exact ih _ _ c hc
    · simp only [dif_neg h] at hc
      exact ih _ _ c hc

/-- The collected candidate indices are a sublist of the processed index
list (each index yields at most one candidate, in order). -/
theorem firstPass_idx_sublist (articles : List Article) (sims : List ℚ)
    (required : List String) (now : Int) (l : List Nat)
    (mrD : Option Int) (mrI : Option Nat) :
    ((firstPass articles sims required now l mrD mrI).1.map Candidate.idx).Sublist l := by
  induction l generalizing mrD mrI with
  | nil => simp [firstPass]
  | cons idx rest ih =>
    rw [firstPass]
    by_cases h : idx < articles.length
    · simp only [dif_pos h]
      by_cases hg : gatePass required (strToLower (articles.get ⟨idx, h⟩).content) = true
      · simp only [hg, if_true, List.map_cons]
        exact List.Sublist.cons₂ idx (ih _ _)
      · simp only [Bool.not_eq_true] at hg
        simp only [hg, if_false]
        exact List.Sublist.cons idx (ih _ _)
    · simp only [dif_neg h]
      exact List.Sublist.cons idx (ih _ _)

/-- A pairwise relation on the processed indices transfers to the
candidate list. -/
theorem firstPass_pairwise (articles : List Article) (sims : List ℚ)
    (required : List String) (now : Int) (l : List Nat)
    (mrD : Option Int) (mrI : Option Nat) (Q : Nat → Nat → Prop)
    (hl : l.Pairwise Q) :
    (firstPass articles sims required now l mrD mrI).1.Pairwise
      (fun c1 c2 => Q c1.idx c2.idx) := by
  have := List.Pairwise.sublist
    (firstPass_idx_sublist articles sims required now l mrD mrI) hl
  exact List.pairwise_map.mp this

/-- A candidate qualifies for the recency boost: it has a parsed date
inside the 7-day window. -/
def qualifies (now : Int) (c : Candidate) : Prop :=
  ∃ d, c.articleDate = some d ∧ withinWindow now d = true

/-- `updateRecent` only grows the tracked date. -/
theorem updateRecent_mono (now : Int) (idx : Nat) (dateOpt mrD : Option Int)
    (mrI : Option Nat) (m0 : Int) (h : mrD = some m0) :
    ∃ m, (updateRecent now idx dateOpt mrD mrI).1 = some m ∧ m0 ≤ m := by
  subst h
  cases dateOpt with
  | none => exact ⟨m0, rfl, le_refl m0⟩
  | some d =>
    by_cases hw : withinWindow now d = true
    · by_cases hlt : m0 < d
      · exact ⟨d, by simp [updateRecent, hw, hlt], le_of_lt hlt⟩
      · exact ⟨m0, by simp [updateRecent, hw, hlt], le_refl m0⟩
    · exact ⟨m0, by simp [updateRecent, hw], le_refl m0⟩

/-- After `updateRecent` sees a qualifying date, the tracked date covers it. -/
theorem updateRecent_covers (now : Int) (idx : Nat) (mrD : Option Int)
    (mrI : Option Nat) (d : Int) (hw : withinWindow now d = true) :
    ∃ m, (updateRecent now idx (some d) mrD mrI).1 = some m ∧ d ≤ m := by
  cases mrD with
  | none => exact ⟨d, by simp [updateRecent, hw], le_refl d⟩
  | some m0 =>
    by_cases hlt : m0 < d
    · exact ⟨d, by simp [updateRecent, hw, hlt], le_refl d⟩
    · exact ⟨m0, by simp [updateRecent, hw, hlt], le_of_not_lt hlt⟩

/-- `updateRecent` either leaves the accumulator alone or installs the
examined date (when it qualifies). -/
theorem updateRecent_cases (now : Int) (idx : Nat) (dateOpt mrD : Option Int)
    (mrI : Option Nat) :
    updateRecent now idx dateOpt mrD mrI = (mrD, mrI) ∨
      ∃ d, dateOpt = some d ∧ withinWindow now d = true ∧
        updateRecent now idx dateOpt mrD mrI = (some d, some idx) := by
  cases dateOpt with
  | none => exact Or.inl rfl
  | some d =>
    by_cases hw : withinWindow now d = true
    · cases mrD with
      | none => exact Or.inr ⟨d, rfl, hw, by simp [updateRecent, hw]⟩
      | some m0 =>
        by_cases hlt : m0 < d
        · exact Or.inr ⟨d, rfl, hw, by simp [updateRecent, hw, hlt]⟩
        · exact Or.inl (by simp [updateRecent, hw, hlt])
    · exact Or.inl (by simp [updateRecent, hw])

/-- The recency accumulator after the first pass: it dominates every
qualifying candidate's date, dominates the initial accumulator, and is
either the untouched initial accumulator or the (date, index) of a
qualifying candidate. -/
theorem firstPass_recent_spec (articles : List Article) (sims : List ℚ)
    (required : List String) (now : Int) (l : List Nat) :
    ∀ (mrD : Option Int) (mrI : Option Nat),
      (∀ c ∈ (firstPass articles sims required now l mrD mrI).1,
        ∀ d, c.articleDate = some d → withinWindow now d = true →
          ∃ m, (firstPass articles sims required now l mrD mrI).2.1 = some m ∧ d ≤ m)
      ∧ (∀ m0, mrD = some m0 →
          ∃ m, (firstPass articles sims required now l mrD mrI).2.1 = some m ∧ m0 ≤ m)
      ∧ ((firstPass articles sims required now l mrD mrI).2 = (mrD, mrI) ∨
          ∃ c ∈ (firstPass articles sims required now l mrD mrI).1, ∃ d,
            c.articleDate = some d ∧ withinWindow now d = true ∧
            (firstPass articles sims required now l mrD mrI).2 = (some d, some c.idx)) := by
  induction l with
  | nil =>
    intro mrD mrI
    refine ⟨?_, ?_, Or.inl rfl⟩
    · intro c hc; simp [firstPass] at hc
    · intro m0 h; exact ⟨m0, by simp [firstPass, h], le_refl m0⟩
  | cons idx rest ih =>
    intro mrD mrI
    rw [firstPass]
    by_cases h : idx < articles.length
    · simp only [dif_pos h]
      by_cases hg : gatePass required (strToLower (articles.get ⟨idx, h⟩).content) = true
      · simp only [hg, if_true]
        set row := articles.get ⟨idx, h⟩ with hrow
        set p := updateRecent now idx row.date mrD mrI with hp
        obtain ⟨ihA, ihB, ihC⟩ := ih p.1 p.2
        refine ⟨?_, ?_, ?_⟩
        · intro c hc d hd hw
          rcases List.mem_cons.mp hc with rfl | hc
          · simp only at hd
            obtain ⟨m1, hm1, hdm1⟩ := updateRecent_covers now idx mrD mrI d hw
            rw [hd] at hp
            obtain ⟨m, hm, hm1m⟩ := ihB m1 (by rw [hp]; exact hm1)
            exact ⟨m, hm, le_trans hdm1 hm1m⟩
          · exact ihA c hc d hd hw
        · intro m0 hm0
          obtain ⟨m1, hm1, hm01⟩ := updateRecent_mono now idx row.date mrD mrI m0 hm0
          obtain ⟨m, hm, hm1m⟩ := ihB m1 (by rw [hp]; exact hm1)
          exact ⟨m, hm, le_trans hm01 hm1m⟩
        · rcases ihC with hsame | ⟨c, hc, d, hd, hw, hfin⟩
          · rcases updateRecent_cases now idx row.date mrD mrI with hkeep | ⟨d, hd, hw, hset⟩
            · left; rw [hsame, hp, hkeep]
            · right
              refine ⟨⟨idx, row, sims.getD idx 0, row.date, strToLower row.content⟩,
                List.mem_cons_self _ _, d, hd, hw, ?_⟩
              rw [hsame, hp, hset]
          · right; exact ⟨c, List.mem_cons_of_mem _ hc, d, hd, hw, hfin⟩
      · simp only [Bool.not_eq_true] at hg
        simp only [hg, if_false]
        exact ih mrD mrI
    · simp only [dif_neg h]
      exact ih mrD mrI

/-- When every Article Store row fails the gate, the first pass collects
nothing. -/
theorem firstPass_all_fail (articles : List Article) (sims : List ℚ)
    (required : List String) (now : Int) (l : List Nat)
    (hfail : ∀ a ∈ articles, gatePass required (strToLower a.content) = false) :
    ∀ (mrD : Option Int) (mrI : Option Nat),
      (firstPass articles sims required now l mrD mrI).1 = [] := by
  induction l with
  | nil => intro mrD mrI; rw [firstPass]
  | cons idx rest ih =>
    intro mrD mrI
    rw [firstPass]
    by_cases h : idx < articles.length
    · simp only [dif_pos h]
      have hg := hfail (articles.get ⟨idx, h⟩) (articles.get_mem _ _)
      simp only [hg, if_false]
      exact ih _ _
    · simp only [dif_neg h]
      exact ih _ _

/-- Conversely: every processed index whose row passes the gate yields a
candidate, whatever its date looks like (an unparseable date does not
exclude an article). -/
theorem firstPass_complete (articles : List Article) (sims : List ℚ)
    (required : List String) (now : Int) (l : List Nat) :
    ∀ (mrD : Option Int) (mrI : Option Nat),
      ∀ idx ∈ l, ∀ h : idx < articles.length,
        gatePass required (strToLower (articles.get ⟨idx, h⟩).content) = true →
        ∃ c ∈ (firstPass articles sims required now l mrD mrI).1,
          c.idx = idx ∧ c.articleDate = (articles.get ⟨idx, h⟩).date := by
  induction l with
  | nil => intro _ _ idx hidx; simp at hidx
  | cons j rest ih =>
    intro mrD mrI idx hidx h hg
    rw [firstPass]
    rcases List.mem_cons.mp hidx with rfl | hidx
    · simp only [dif_pos h, hg, if_true]
      exact ⟨_, List.mem_cons_self _ _, rfl, rfl⟩
    · by_cases hj : j < articles.length
      · simp only [dif_pos hj]
        by_cases hgj : gatePass required (strToLower (articles.get ⟨j, hj⟩).content) = true
        · simp only [hgj, if_true]
          obtain ⟨c, hc, hci⟩ := ih _ _ idx hidx h hg
          exact ⟨c, List.mem_cons_of_mem _ hc, hci⟩
        · simp only [Bool.not_eq_true] at hgj
          simp only [hgj, if_false]
          exact ih _ _ idx hidx h hg
      · simp only [dif_neg hj]
        exact ih _ _ idx hidx h hg

/-- Everything `search_articles` returns is one of the records of the
unsorted second-pass result list. -/
theorem search_subset (articles : List Article) (sims : List ℚ) (now : Int)
    (query : String) (top_k : Nat) :
    ∀ r ∈ search_articles articles sims now query top_k,
      r ∈ searchResultsAll articles sims now query top_k := by
  intro r hr
  rw [search_articles] at hr
  by_cases h1 : (sims.length == 0 || articles.length == 0) = true
  · simp only [h1, if_true] at hr
    exact absurd hr (List.not_mem_nil r)
  · simp only [Bool.not_eq_true] at h1
    simp only [h1, Bool.false_eq_true, if_false] at hr
    by_cases h2 : (searchFirstPass articles sims now query top_k).1.isEmpty = true
    · simp only [h2, if_true] at hr
      exact absurd hr (List.not_mem_nil r)
    · simp only [Bool.not_eq_true] at h2
      simp only [h2, Bool.false_eq_true, if_false] at hr
      exact ((List.perm_insertionSort _ _).mem_iff).mp (List.take_subset _ _ hr)

/-- The returned list is, up to the final stable sort and truncation,
the candidate list mapped through `buildResult`. -/
theorem mem_searchResultsAll (articles : List Article) (sims : List ℚ)
    (now : Int) (query : String) (top_k : Nat) (r : ResultRecord) :
    r ∈ searchResultsAll articles sims now query top_k ↔
      ∃ c ∈ (searchFirstPass articles sims now query top_k).1,
        buildResult (searchFirstPass articles sims now query top_k).2.2
          (queryKeywords (strToLower query)) c = r := by
  rw [searchResultsAll]
  exact List.mem_map

/-- The candidate pool `top_indices` has no duplicate index. -/
theorem topIndices_nodup (sims : List ℚ) (top_k : Nat) :
    (topIndices sims top_k).Nodup := by
  refine List.Nodup.sublist (List.take_sublist _ _) ?_
  rw [argsortDesc, List.nodup_reverse]
  exact ((List.perm_insertionSort _ _).nodup_iff).mpr (List.nodup_range _)

/-- At most one record of the unsorted result list carries a nonzero
recency boost. -/
theorem searchResultsAll_recency_count (articles : List Article) (sims : List ℚ)
    (now : Int) (query : String) (top_k : Nat) :
    (searchResultsAll articles sims now query top_k).countP
      (fun r => !(r.recency_boost == 0)) ≤ 1 := by
  have hten : ((((10:ℚ)/100) == 0)) = false := beq_eq_false_iff_ne.mpr (by norm_num)
  have hnd : ((searchFirstPass articles sims now query top_k).1.map
      Candidate.idx).Nodup := by
    rw [searchFirstPass]
    exact List.Nodup.sublist
      (firstPass_idx_sublist articles sims (requiredTerms (strToLower query))
        now (topIndices sims top_k) none none)
      (topIndices_nodup sims top_k)
  rw [searchResultsAll, List.countP_map]
  cases hm : (searchFirstPass articles sims now query top_k).2.2 with
  | none =>
    have : List.countP ((fun r => !(r.recency_boost == 0)) ∘
        buildResult none (queryKeywords (strToLower query)))
        (searchFirstPass articles sims now query top_k).1 = 0 := by
      rw [List.countP_eq_zero]
      intro c _
      simp only [Function.comp, buildResult]
      rw [if_neg (by simp)]
      simp
    rw [this]
    exact Nat.zero_le 1
  | some i =>
    have hcong : List.countP ((fun r => !(r.recency_boost == 0)) ∘
        buildResult (some i) (queryKeywords (strToLower query)))
        (searchFirstPass articles sims now query top_k).1 =
        List.countP (fun c : Candidate => c.idx == i)
          (searchFirstPass articles sims now query top_k).1 := by
      refine List.countP_congr ?_
      intro c _
      by_cases hci : c.idx = i
      · simp only [Function.comp, buildResult, hci, if_pos rfl]
        simp [hten, hci]
      · have hne : ¬ ((some i : Option Nat) = some c.idx) := by
          intro hcontra
          exact hci (Option.some_injective _ hcontra).symm
        simp only [Function.comp, buildResult, if_neg hne]
        simp [hci]
    rw [hcong]
    have hcount : List.countP (fun c : Candidate => c.idx == i)
        (searchFirstPass articles sims now query top_k).1 =
        List.count i ((searchFirstPass articles sims now query top_k).1.map
          Candidate.idx) := by
      rw [List.count_eq_countP, List.countP_map]
      rfl
    rw [hcount]
    exact List.nodup_iff_count_le_one.mp hnd i

/-- Any count over what `search_articles` returns is bounded by the same
count over the unsorted result list (the output is a truncation of a
permutation of it). -/
theorem search_countP_le (articles : List Article) (sims : List ℚ) (now : Int)
    (query : String) (top_k : Nat) (p : ResultRecord → Bool) :
    (search_articles articles sims now query top_k).countP p ≤
      (searchResultsAll articles sims now query top_k).countP p := by
  rw [search_articles]
  by_cases h1 : (sims.length == 0 || articles.length == 0) = true
  · simp only [h1, if_true, List.countP_nil]
    exact Nat.zero_le _
  · simp only [Bool.not_eq_true] at h1
    simp only [h1, Bool.false_eq_true, if_false]
    by_cases h2 : (searchFirstPass articles sims now query top_k).1.isEmpty = true
    · simp only [h2, if_true, List.countP_nil]
      exact Nat.zero_le _
    · simp only [Bool.not_eq_true] at h2
      simp only [h2, Bool.false_eq_true, if_false]
      calc (((List.insertionSort (fun a b : ResultRecord => b.score ≤ a.score)
              (searchResultsAll articles sims now query top_k)).take top_k).countP p)
          ≤ ((List.insertionSort (fun a b : ResultRecord => b.score ≤ a.score)
              (searchResultsAll articles sims now query top_k)).countP p) :=
            List.Sublist.countP_le p (List.take_sublist _ _)
        _ = (searchResultsAll articles sims now query top_k).countP p :=
            List.Perm.countP_eq p (List.perm_insertionSort _ _)

/-! ## Theorems for the frozen claims (search ranker) -/

/-- C2 (amended): for every record `search_articles` returns, the keyword
boost lies in [0, 0.20], the recency boost is 0 or 0.10, at most one
returned record has the nonzero recency boost, the final blended score is
at most 1, and it lies in [0, 1] whenever the base cosine score is
nonnegative.  (The unamended "final score always in [0,1]" fails when the
cosine similarity is negative, see the counterexample.) -/
theorem C2_score_component_bounds (articles : List Article) (sims : List ℚ)
    (now : Int) (query : String) (top_k : Nat) :
    (∀ r ∈ searchResultsAll articles sims now query top_k,
      0 ≤ r.keyword_boost ∧ r.keyword_boost ≤ 20/100 ∧
      (r.recency_boost = 0 ∨ r.recency_boost = 10/100) ∧
      r.score ≤ 1 ∧ (0 ≤ r.original_score → 0 ≤ r.score)) ∧
    (searchResultsAll articles sims now query top_k).countP
      (fun r => !(r.recency_boost == 0)) ≤ 1 ∧
    (∀ r ∈ search_articles articles sims now query top_k,
      r ∈ searchResultsAll articles sims now query top_k) ∧
    (search_articles articles sims now query top_k).countP
      (fun r => !(r.recency_boost == 0)) ≤ 1 := by
  refine ⟨?_, searchResultsAll_recency_count articles sims now query top_k,
    search_subset articles sims now query top_k, ?_⟩
  · intro r hr
    obtain ⟨c, hc, hb⟩ := (mem_searchResultsAll articles sims now query top_k r).mp hr
    have hrb : (buildResult (searchFirstPass articles sims now query top_k).2.2
        (queryKeywords (strToLower query)) c).recency_boost = 0 ∨
        (buildResult (searchFirstPass articles sims now query top_k).2.2
        (queryKeywords (strToLower query)) c).recency_boost = 10/100 := by
      simp only [buildResult]
      by_cases hi : (searchFirstPass articles sims now query top_k).2.2 = some c.idx
      · rw [if_pos hi]; exact Or.inr rfl
      · rw [if_neg hi]; exact Or.inl rfl
    have hrb0 : (0:ℚ) ≤ (buildResult (searchFirstPass articles sims now query top_k).2.2
        (queryKeywords (strToLower query)) c).recency_boost := by
      rcases hrb with h | h
      · rw [h]
      · rw [h]; norm_num
    have hkb0 : (0:ℚ) ≤ keywordBoost (queryKeywords (strToLower query)) c.contentLower := by
      rw [keywordBoost]
      exact le_min (by norm_num) (mul_nonneg (Nat.cast_nonneg _) (by norm_num))
    subst hb
    refine ⟨hkb0, ?_, hrb, ?_, ?_⟩
    · exact min_le_left _ _
    · exact min_le_left _ _
    · intro horig
      simp only [buildResult] at horig ⊢
      refine le_min (by norm_num) ?_
      exact add_nonneg (add_nonneg horig hrb0) hkb0
  · calc (search_articles articles sims now query top_k).countP
          (fun r => !(r.recency_boost == 0))
        ≤ (searchResultsAll articles sims now query top_k).countP
          (fun r => !(r.recency_boost == 0)) :=
          search_countP_le articles sims now query top_k _
    _ ≤ 1 := searchResultsAll_recency_count articles sims now query top_k

/-- C1 (amended): when the query activates at least one required-term
gate, every returned record's content contains at least one of the
activated required terms — the union over all activated gates, which for
a query activating only the rig-count gate is exactly the rig-count term
list; and if no Article Store row contains any activated term, the
search returns the empty list. -/
theorem C1_required_term_gate (articles : List Article) (sims : List ℚ)
    (now : Int) (query : String) (top_k : Nat)
    (hgate : requiredTerms (strToLower query) ≠ []) :
    (∀ r ∈ search_articles articles sims now query top_k,
      (requiredTerms (strToLower query)).any
        (fun t => containsSub (strToLower r.content) t) = true) ∧
    ((∀ a ∈ articles, (requiredTerms (strToLower query)).any
        (fun t => containsSub (strToLower a.content) t) = false) →
      search_articles articles sims now query top_k = []) := by
  have hempty : (requiredTerms (strToLower query)).isEmpty = false := by
    cases hreq : requiredTerms (strToLower query) with
    | nil => exact absurd hreq hgate
    | cons t ts => rfl
  constructor
  · intro r hr
    obtain ⟨c, hc, hb⟩ := (mem_searchResultsAll articles sims now query top_k r).mp
      (search_subset articles sims now query top_k r hr)
    obtain ⟨hlen, hrow, hscore, hdate, hcl, hg⟩ := firstPass_mem articles sims
      (requiredTerms (strToLower query)) now (topIndices sims top_k) none none c
      (by rw [searchFirstPass] at hc; exact hc)
    rw [gatePass, hempty, Bool.false_or] at hg
    have hcontent : r.content = c.row.content := by rw [← hb]; rfl
    rw [hcontent, ← hcl]
    exact hg
  · intro hfail
    have hfail' : ∀ a ∈ articles,
        gatePass (requiredTerms (strToLower query)) (strToLower a.content) = false := by
      intro a ha
      rw [gatePass, hempty, Bool.false_or]
      exact hfail a ha
    rw [search_articles]
    by_cases h1 : (sims.length == 0 || articles.length == 0) = true
    · rw [if_pos h1]
    · rw [if_neg h1]
      have : (searchFirstPass articles sims now query top_k).1 = [] := by
        rw [searchFirstPass]
        exact firstPass_all_fail articles sims (requiredTerms (strToLower query))
          now (topIndices sims top_k) hfail' none none
      rw [this]
      rfl

/-- C3: the recency boost goes exactly to the most recent qualifying
gated candidate.  Parts: (1) if no boost target was chosen, no gated
candidate had a parsed date inside the window; (2) a chosen boost target
is a gated candidate with a parsed in-window date that no other gated
candidate's qualifying date exceeds; (3) a record carries the 0.10 boost
iff it is the chosen target; (4) a record with a missing/unparseable
date never carries the boost; (5) a gated row is collected as a
candidate whatever its date is — a parse failure never aborts the
search. -/
theorem C3_recency_most_recent (articles : List Article) (sims : List ℚ)
    (now : Int) (query : String) (top_k : Nat) :
    ((searchFirstPass articles sims now query top_k).2.2 = none →
      ∀ c ∈ (searchFirstPass articles sims now query top_k).1, ¬ qualifies now c) ∧
    (∀ i, (searchFirstPass articles sims now query top_k).2.2 = some i →
      ∃ c ∈ (searchFirstPass articles sims now query top_k).1, c.idx = i ∧
        ∃ d, c.articleDate = some d ∧ withinWindow now d = true ∧
          ∀ c2 ∈ (searchFirstPass articles sims now query top_k).1,
            ∀ d2, c2.articleDate = some d2 → withinWindow now d2 = true → d2 ≤ d) ∧
    (∀ r ∈ searchResultsAll articles sims now query top_k,
      (r.recency_boost = 10/100 ↔
        (searchFirstPass articles sims now query top_k).2.2 = some r.idx)) ∧
    (∀ r ∈ searchResultsAll articles sims now query top_k,
      r.date = none → r.recency_boost = 0) ∧
    (∀ idx ∈ topIndices sims top_k, ∀ h : idx < articles.length,
      gatePass (requiredTerms (strToLower query))
        (strToLower (articles.get ⟨idx, h⟩).content) = true →
      ∃ c ∈ (searchFirstPass articles sims now query top_k).1, c.idx = idx) := by
  obtain ⟨hA, hB, hC⟩ := firstPass_recent_spec articles sims
    (requiredTerms (strToLower query)) now (topIndices sims top_k) none none
  have hfp : searchFirstPass articles sims now query top_k =
      firstPass articles sims (requiredTerms (strToLower query)) now
        (topIndices sims top_k) none none := rfl
  have hone : ∀ i, (searchFirstPass articles sims now query top_k).2.2 = some i →
      ∃ c ∈ (searchFirstPass articles sims now query top_k).1, c.idx = i ∧
        ∃ d, c.articleDate = some d ∧ withinWindow now d = true ∧
          (searchFirstPass articles sims now query top_k).2.1 = some d := by
    intro i hi
    rw [hfp] at hi ⊢
    rcases hC with hsame | ⟨c, hc, d, hd, hw, hfin⟩
    · rw [hsame] at hi; exact absurd hi (by simp)
    · have h1 : (firstPass articles sims (requiredTerms (strToLower query)) now
          (topIndices sims top_k) none none).2.1 = some d := by rw [hfin]
      have h2 : (firstPass articles sims (requiredTerms (strToLower query)) now
          (topIndices sims top_k) none none).2.2 = some c.idx := by rw [hfin]
      rw [h2] at hi
      exact ⟨c, hc, (Option.some_injective _ hi).symm ▸ rfl, d, hd, hw, h1⟩
  refine ⟨?_, ?_, ?_, ?_, ?_⟩
  · intro hnone c hc hqual
    obtain ⟨d, hd, hw⟩ := hqual
    rw [hfp] at hnone hc
    obtain ⟨m, hm, _⟩ := hA c hc d hd hw
    rcases hC with hsame | ⟨c2, _, d2, _, _, hfin⟩
    · rw [hsame] at hm; exact Option.noConfusion hm
    · have : (firstPass articles sims (requiredTerms (strToLower query)) now
          (topIndices sims top_k) none none).2.2 = some c2.idx := by rw [hfin]
      rw [hnone] at this
      exact Option.noConfusion this
  · intro i hi
    obtain ⟨c, hc, hci, d, hd, hw, hfind⟩ := hone i hi
    refine ⟨c, hc, hci, d, hd, hw, ?_⟩
    intro c2 hc2 d2 hd2 hw2
    rw [hfp] at hc2 hfind
    obtain ⟨m, hm, hdm⟩ := hA c2 hc2 d2 hd2 hw2
    rw [hfind] at hm
    exact (Option.some_injective _ hm) ▸ hdm
  · intro r hr
    obtain ⟨c, hc, hb⟩ := (mem_searchResultsAll articles sims now query top_k r).mp hr
    subst hb
    simp only [buildResult]
    by_cases hi : (searchFirstPass articles sims now query top_k).2.2 = some c.idx
    · rw [if_pos hi]
      exact ⟨fun _ => hi, fun _ => rfl⟩
    · rw [if_neg hi]
      constructor
      · intro h0; exact absurd h0 (by norm_num)
      · intro h; exact absurd h hi
  · intro r hr hdate
    obtain ⟨c, hc, hb⟩ := (mem_searchResultsAll articles sims now query top_k r).mp hr
    have hradate : r.date = c.row.date := by rw [← hb]; rfl
    have hcd : c.articleDate = c.row.date := by
      obtain ⟨_, _, _, h, _⟩ := firstPass_mem articles sims
        (requiredTerms (strToLower query)) now (topIndices sims top_k) none none c
        (by rw [searchFirstPass] at hc; exact hc)
      exact h
    subst hb
    simp only [buildResult]
    by_cases hi : (searchFirstPass articles sims now query top_k).2.2 = some c.idx
    · exfalso
      obtain ⟨c2, hc2, hc2i, d, hd, _, _⟩ := hone c.idx hi
      have hnd : ((searchFirstPass articles sims now query top_k).1.map
          Candidate.idx).Nodup := by
        rw [searchFirstPass]
        exact List.Nodup.sublist
          (firstPass_idx_sublist articles sims (requiredTerms (strToLower query))
            now (topIndices sims top_k) none none)
          (topIndices_nodup sims top_k)
      have hceq : c2 = c := List.inj_on_of_nodup_map hnd hc2 hc hc2i
      rw [hceq] at hd
      rw [hcd] at hd
      rw [← hradate, hdate] at hd
      exact Option.noConfusion hd
    · rw [if_neg hi]
  · intro idx hidx h hg
    obtain ⟨c, hc, hci, _⟩ := firstPass_complete articles sims
      (requiredTerms (strToLower query)) now (topIndices sims top_k) none none
      idx hidx h hg
    exact ⟨c, by rw [searchFirstPass]; exact hc, hci⟩

/-- C4 (amended): the returned list is sorted descending by final
(boosted) score, and among records with equal final score the one with
the higher original base score comes first — the candidate pool is in
descending base-score order whatever `np.argsort` does with equal keys,
and Python's final sort is stable.  No order is stated among records
equal in both final and base score: numpy's default quicksort is
unstable for equal keys, so the program guarantees none (and the
counterexample shows the earlier store row can come last). -/
theorem C4_ranking_order (articles : List Article) (sims : List ℚ)
    (now : Int) (query : String) (top_k : Nat) :
    (search_articles articles sims now query top_k).Pairwise
      (fun r1 r2 => r2.score ≤ r1.score ∧ (r1.score ≤ r2.score →
        r2.original_score ≤ r1.original_score)) := by
  rw [search_articles]
  by_cases h1 : (sims.length == 0 || articles.length == 0) = true
  · rw [if_pos h1]; exact List.Pairwise.nil
  · rw [if_neg h1]
    by_cases h2 : (searchFirstPass articles sims now query top_k).1.isEmpty = true
    · rw [if_pos h2]; exact List.Pairwise.nil
    · rw [if_neg h2]
      have hsort := insertionSort_pairwise
        (fun i j => sims.getD i 0 ≤ sims.getD j 0)
        (fun a b => le_total (sims.getD a 0) (sims.getD b 0))
        (fun hab hbc => le_trans hab hbc) (fun _ _ => True)
        (List.range sims.length)
        (List.pairwise_iff_forall_sublist.mpr (fun _ => trivial))
      have hrev : (argsortDesc sims).Pairwise
          (fun i j => sims.getD j 0 ≤ sims.getD i 0) := by
        rw [argsortDesc]
        exact (List.pairwise_reverse.mpr hsort).imp (fun h => h.1)
      have htop : (topIndices sims top_k).Pairwise
          (fun i j => sims.getD j 0 ≤ sims.getD i 0) :=
        List.Pairwise.sublist (List.take_sublist _ _) hrev
      have hcand := firstPass_pairwise articles sims
        (requiredTerms (strToLower query)) now (topIndices sims top_k) none none
        (fun i j => sims.getD j 0 ≤ sims.getD i 0) htop
      have hcand2 : (searchFirstPass articles sims now query top_k).1.Pairwise
          (fun c1 c2 => c2.score ≤ c1.score) := by
        rw [searchFirstPass]
        refine List.Pairwise.imp_of_mem ?_ hcand
        intro c1 c2 h1m h2m hS
        obtain ⟨_, _, hs1, _⟩ := firstPass_mem articles sims
          (requiredTerms (strToLower query)) now (topIndices sims top_k)
          none none c1 h1m
        obtain ⟨_, _, hs2, _⟩ := firstPass_mem articles sims
          (requiredTerms (strToLower query)) now (topIndices sims top_k)
          none none c2 h2m
        rw [hs1, hs2]
        exact hS
      have hres : (searchResultsAll articles sims now query top_k).Pairwise
          (fun r1 r2 => r2.original_score ≤ r1.original_score) := by
        rw [searchResultsAll]
        exact List.pairwise_map.mpr hcand2
      have hfinal := insertionSort_pairwise
        (fun a b : ResultRecord => b.score ≤ a.score)
        (fun a b => (le_total a.score b.score).symm)
        (fun hab hbc => le_trans hbc hab)
        (fun r1 r2 => r2.original_score ≤ r1.original_score)
        (searchResultsAll articles sims now query top_k) hres
      exact List.Pairwise.sublist (List.take_sublist _ _) hfinal

/-- C1 witness: for the query "rig count" against one store row lacking
every rig-count term, the gate theorem applies and in particular forces
the empty result. -/
theorem C1_required_term_gate_witness :
    (∀ r ∈ search_articles [⟨"t", "pipeline news", none, "s", "l"⟩] [1/2] 0
        "rig count" 5,
      (requiredTerms (strToLower "rig count")).any
        (fun t => containsSub (strToLower r.content) t) = true) ∧
    ((∀ a ∈ [(⟨"t", "pipeline news", none, "s", "l"⟩ : Article)],
        (requiredTerms (strToLower "rig count")).any
          (fun t => containsSub (strToLower a.content) t) = false) →
      search_articles [⟨"t", "pipeline news", none, "s", "l"⟩] [1/2] 0
        "rig count" 5 = []) :=
  C1_required_term_gate [⟨"t", "pipeline news", none, "s", "l"⟩] [1/2] 0
    "rig count" 5 (by decide)

/-- C1 counterexample: the query "rig count oil price" contains
"rig count", yet the single returned record's content ("Brent crude
steady", admitted through the oil-price gate) contains none of the four
rig-count required terms.  The claim as stated is false. -/
theorem C1_counterexample_union_gate :
    containsSub (strToLower "rig count oil price") "rig count" = true ∧
    (search_articles [⟨"t", "Brent crude steady", none, "s", "l"⟩] [1/2] 0
        "rig count oil price" 5).map
      (fun r => (r.content, rigCountTerms.any
        (fun t => containsSub (strToLower r.content) t))) =
      [("Brent crude steady", false)] := by
  constructor
  · with_unfolding_all rfl
  · with_unfolding_all rfl

/-- C2 counterexample: with a (legitimate) negative cosine similarity of
-0.5 and no boosts, the returned final score is -0.5, outside [0, 1].
The claim's "final score lies in [0,1]" is false as stated. -/
theorem C2_counterexample_negative_score :
    (search_articles [⟨"t", "pipeline network", none, "s", "l"⟩] [-(1/2)] 0
        "storage" 5).map (fun r => r.score) = [-(1/2)] ∧ ¬ ((0:ℚ) ≤ -(1/2)) := by
  constructor
  · with_unfolding_all rfl
  · norm_num

/-- C4 counterexample: two identical store rows with identical
similarity 1/2 tie on final and base score, yet row 1 (the later
insertion) is returned before row 0, contradicting "earlier in store
insertion order comes first".  At this size numpy's argsort runs its
insertion-sort path, which is stable ascending, and `[::-1]` then puts
the later row first — exactly what the model computes here. -/
theorem C4_counterexample_tie_order :
    (search_articles [⟨"t", "pipeline network", none, "s", "l"⟩,
        ⟨"t", "pipeline network", none, "s", "l"⟩] [1/2, 1/2] 0 "storage" 5).map
      (fun r => (r.idx, r.score, r.original_score)) =
      [(1, 1/2, 1/2), (0, 1/2, 1/2)] := by
  with_unfolding_all rfl

/-! ## Incremental embedding pipeline
(`create_embeddings` / `_save_ordered_embeddings`, semantic_embeddings.py
lines 41-149).  The hash function (`hashlib.md5(...).hexdigest()`) and the
embedding model (`model.encode`) are opaque parameters; the run starts
from the already-loaded hash-indexed mapping (`embeddings_by_hash`),
modelled as an association list whose most recent insertion is at the
front, as assignments into a Python dict behave under `lookup`. -/

/-- An embedding vector (numpy array of floats). -/
abbrev Vec := List ℚ

/-- A row of `articles.csv` as the pipeline reads it (only title and
content feed the hash and the text). -/
structure EmbRow where
  title : String
  content : String
deriving DecidableEq

/-- semantic_embeddings.py lines 21-24: `get_article_hash`. -/
def get_article_hash (md5 : String → String) (title content : String) : String :=
  md5 (title ++ "|" ++ content)

/-- semantic_embeddings.py line 93: the text embedded for a new article,
`f"{title}. {content[:1000]}"`. -/
def articleText (r : EmbRow) : String := r.title ++ ". " ++ r.content.take 1000

/-- semantic_embeddings.py lines 82-94: the rows whose hash is absent
from the mapping, in store order. -/
def articlesNeeding (md5 : String → String) (df : List EmbRow)
    (ebh : List (String × Vec)) : List EmbRow :=
  df.filter (fun r => (ebh.lookup (get_article_hash md5 r.title r.content)).isNone)

/-- semantic_embeddings.py lines 125-139: the order-aligned array —
per row, the mapping's entry for that row's hash, else the zero vector
of dimension 768. -/
def orderedEmbeddings (md5 : String → String) (df : List EmbRow)
    (ebh : List (String × Vec)) : List Vec :=
  df.map (fun r => ((ebh.lookup (get_article_hash md5 r.title r.content)).getD
    (List.replicate 768 0)))

/-- What one `create_embeddings` run did: the texts passed to
`model.encode` (in order), whether the SentenceTransformer was
initialised at all, and the three persisted artifacts. -/
structure PipelineRun where
  embeddedTexts : List String
  modelLoaded : Bool
  finalMap : List (String × Vec)
  ordered : List Vec
  processed : List String
deriving DecidableEq

/-- semantic_embeddings.py lines 41-122: `create_embeddings` from the
loaded mapping onward.  When no row needs an embedding it only rebuilds
the ordered view (lines 96-101); otherwise it loads the model, encodes
exactly the needed texts, merges them into the mapping and persists
both views (lines 103-122). -/
def create_embeddings (md5 : String → String) (embed : String → Vec)
    (df : List EmbRow) (ebh : List (String × Vec)) : PipelineRun :=
  let need := articlesNeeding md5 df ebh
  if need.isEmpty then
    { embeddedTexts := [], modelLoaded := false, finalMap := ebh,
      ordered := orderedEmbeddings md5 df ebh,
      processed := (ebh.map Prod.fst).dedup }
  else
    let newMap := need.foldl (fun acc r =>
      (get_article_hash md5 r.title r.content, embed (articleText r)) :: acc) ebh
    { embeddedTexts := need.map articleText, modelLoaded := true,
      finalMap := newMap,
      ordered := orderedEmbeddings md5 df newMap,
      processed := (newMap.map Prod.fst).dedup }

/-- C5: a run embeds exactly the texts of the rows whose content hash is
absent from the existing mapping, in store order; when there are none,
nothing is embedded and the model is never initialised. -/
theorem C5_incremental_computation (md5 : String → String) (embed : String → Vec)
    (df : List EmbRow) (ebh : List (String × Vec)) :
    (create_embeddings md5 embed df ebh).embeddedTexts =
      (articlesNeeding md5 df ebh).map articleText ∧
    (create_embeddings md5 embed df ebh).embeddedTexts.length =
      (articlesNeeding md5 df ebh).length ∧
    ((create_embeddings md5 embed df ebh).modelLoaded = false ↔
      articlesNeeding md5 df ebh = []) := by
  rw [create_embeddings]
  by_cases h : (articlesNeeding md5 df ebh).isEmpty = true
  · rw [if_pos h]
    rw [List.isEmpty_iff] at h
    simp [h]
  · rw [if_neg h]
    rw [List.isEmpty_iff] at h
    refine ⟨rfl, List.length_map _ _, ?_⟩
    constructor
    · intro hfalse; exact absurd hfalse (by simp)
    · intro hnil; exact absurd hnil h

/-- The order-aligned view row by row. -/
theorem orderedEmbeddings_getD (md5 : String → String) (df : List EmbRow)
    (ebh : List (String × Vec)) (i : Nat) (hi : i < df.length) :
    (orderedEmbeddings md5 df ebh).getD i [] =
      ((ebh.lookup (get_article_hash md5 (df.get ⟨i, hi⟩).title
        (df.get ⟨i, hi⟩).content)).getD (List.replicate 768 0)) := by
  rw [orderedEmbeddings]
  rw [List.getD_eq_getElem _ _ ((List.length_map df _).symm ▸ hi)]
  rw [List.getElem_map]
  rfl

/-- C6: after any run, the persisted order-aligned sequence has one entry
per store row; at index `i` it equals the final mapping's entry for that
row's content hash when present, and the 768-dimensional zero vector when
absent. -/
theorem C6_order_alignment (md5 : String → String) (embed : String → Vec)
    (df : List EmbRow) (ebh : List (String × Vec)) (i : Nat)
    (hi : i < df.length) :
    (create_embeddings md5 embed df ebh).ordered.length = df.length ∧
    (∀ v, (create_embeddings md5 embed df ebh).finalMap.lookup
        (get_article_hash md5 (df.get ⟨i, hi⟩).title (df.get ⟨i, hi⟩).content) =
          some v →
      (create_embeddings md5 embed df ebh).ordered.getD i [] = v) ∧
    ((create_embeddings md5 embed df ebh).finalMap.lookup
        (get_article_hash md5 (df.get ⟨i, hi⟩).title (df.get ⟨i, hi⟩).content) =
          none →
      (create_embeddings md5 embed df ebh).ordered.getD i [] =
        List.replicate 768 0) := by
  have key : ∀ m : List (String × Vec),
      (orderedEmbeddings md5 df m).length = df.length ∧
      (∀ v, m.lookup (get_article_hash md5 (df.get ⟨i, hi⟩).title
          (df.get ⟨i, hi⟩).content) = some v →
        (orderedEmbeddings md5 df m).getD i [] = v) ∧
      (m.lookup (get_article_hash md5 (df.get ⟨i, hi⟩).title
          (df.get ⟨i, hi⟩).content) = none →
        (orderedEmbeddings md5 df m).getD i [] = List.replicate 768 0) := by
    intro m
    refine ⟨by rw [orderedEmbeddings]; exact List.length_map _ _, ?_, ?_⟩
    · intro v hv
      rw [orderedEmbeddings_getD md5 df m i hi, hv]
      rfl
    · intro hv
      rw [orderedEmbeddings_getD md5 df m i hi, hv]
      rfl
  rw [create_embeddings]
  by_cases h : (articlesNeeding md5 df ebh).isEmpty = true
  · rw [if_pos h]
    exact key ebh
  · rw [if_neg h]
    exact key _

/-- C6 witness: a one-row store with an empty mapping; the run embeds the
row and the ordered view at index 0 is that embedding. -/
theorem C6_order_alignment_witness :
    (create_embeddings id (fun _ => [1]) [⟨"a", "b"⟩] []).ordered.length =
      ([⟨"a", "b"⟩] : List EmbRow).length ∧
    (∀ v, (create_embeddings id (fun _ => [1]) [⟨"a", "b"⟩] []).finalMap.lookup
        (get_article_hash id (([⟨"a", "b"⟩] : List EmbRow).get
          ⟨0, by decide⟩).title (([⟨"a", "b"⟩] : List EmbRow).get
          ⟨0, by decide⟩).content) = some v →
      (create_embeddings id (fun _ => [1]) [⟨"a", "b"⟩] []).ordered.getD 0 [] = v) ∧
    ((create_embeddings id (fun _ => [1]) [⟨"a", "b"⟩] []).finalMap.lookup
        (get_article_hash id (([⟨"a", "b"⟩] : List EmbRow).get
          ⟨0, by decide⟩).title (([⟨"a", "b"⟩] : List EmbRow).get
          ⟨0, by decide⟩).content) = none →
      (create_embeddings id (fun _ => [1]) [⟨"a", "b"⟩] []).ordered.getD 0 [] =
        List.replicate 768 0) :=
  C6_order_alignment id (fun _ => [1]) [⟨"a", "b"⟩] [] 0 (by decide)

/-! ## Classifier trainer (`train_classifier`, text_classifier.py
lines 27-204).  The sklearn pieces (SentenceTransformer embeddings,
train/test split, the VotingClassifier fit and its two accuracy scores)
are opaque: the fitted model is a caller-supplied stand-in id and the
two accuracies are parameters.  Everything that decides the claims —
the skip gate, auto-labelling, label encoding, the <2-members filter
and what gets persisted — is modelled from the source. -/

/-- text_classifier.py lines 27-43: the category→keyword table, in
declaration (= dict iteration) order. -/
def CATEGORY_KEYWORDS : List (String × List String) :=
  [("price_market",
    ["price", "oil price", "gas price", "barrel", "brent", "wti", "crude",
     "market", "trading", "futures", "opec", "demand", "supply", "rally",
     "drop", "surge"]),
   ("production",
    ["production", "output", "drilling", "well", "reservoir", "extraction",
     "pump", "bpd", "barrels per day", "mcf", "rig count", "shale",
     "offshore", "onshore"]),
   ("pipeline_lng",
    ["pipeline", "lng", "liquefied", "terminal", "export", "import",
     "transport", "tanker", "shipping", "infrastructure", "gas pipeline",
     "oil pipeline"]),
   ("geopolitics",
    ["sanction", "russia", "iran", "saudi", "opec", "war", "conflict",
     "embargo", "political", "government", "policy", "diplomacy",
     "middle east", "tension"]),
   ("corporate",
    ["merger", "acquisition", "deal", "ceo", "company", "earnings",
     "profit", "loss", "revenue", "stock", "shares", "dividend",
     "investment", "capital", "ipo"]),
   ("exploration",
    ["discovery", "exploration", "survey", "seismic", "prospect", "find",
     "reserve", "basin", "field", "block", "license", "permit", "deepwater"]),
   ("regulation",
    ["regulation", "law", "legislation", "epa", "permit", "compliance",
     "environmental", "emission", "carbon", "climate", "renewable",
     "transition", "green"]),
   ("other", [])]

/-- Python's `max(values)` over the score list (guarded nonempty by the
caller). -/
def maxSnd : List (String × Nat) → Nat
  | [] => 0
  | (_, v) :: rest => max v (maxSnd rest)

/-- Python's `max(scores, key=scores.get)`: the first key attaining the
maximal value, scanning in insertion order. -/
def argmaxFirst : List (String × Nat) → String → Nat → String
  | [], best, _ => best
  | (c, v) :: rest, best, bv =>
    if bv < v then argmaxFirst rest c v else argmaxFirst rest best bv

/-- text_classifier.py lines 46-60: `auto_label_article` — keyword-hit
counts per category (skipping 'other'), falling back to 'other' when all
scores are zero, else the first category with the maximal score. -/
def auto_label_article (text : String) : String :=
  let textLower := strToLower text
  let scores := (CATEGORY_KEYWORDS.filter (fun p => p.1 ≠ "other")).map
    (fun p => (p.1, p.2.countP (fun kw => containsSub textLower kw)))
  match scores with
  | [] => "other"
  | s :: rest => if maxSnd (s :: rest) == 0 then "other" else argmaxFirst rest s.1 s.2

/-- `sklearn.LabelEncoder.fit`: the sorted distinct categories. -/
def encoderClasses (cats : List String) : List String :=
  List.insertionSort (fun a b : String => a ≤ b) cats.dedup

/-- The run's accuracy metrics as persisted in `classifier_state.json`. -/
structure Metrics where
  train_accuracy : ℚ
  test_accuracy : ℚ
deriving DecidableEq

/-- `classifier_state.json` content: both keys may be absent
(`state.get('article_count', 0)` / `state.get('metrics', {})`). -/
structure TrainState where
  article_count : Option Int
  metrics : Option Metrics
deriving DecidableEq

/-- `classifier.pkl` content: an opaque fitted-model stand-in plus the
pickled label encoder's classes. -/
structure ClassifierFile where
  modelId : Nat
  classes : List String
deriving DecidableEq

/-- `labels.json` content (the keyword table it also stores is the
constant `CATEGORY_KEYWORDS`). -/
structure LabelsFile where
  classes : List String
deriving DecidableEq

/-- The three files `train_classifier` may write. -/
structure TrainFiles where
  classifierPkl : Option ClassifierFile
  labelsJson : Option LabelsFile
  stateJson : Option TrainState
deriving DecidableEq

/-- What `train_classifier` returns: Python `None` when there is no
`articles.csv`, the previous/new metrics dict otherwise (`emptyDict`
models `state.get('metrics', {})` when the key is absent). -/
inductive TrainReturn
  | noCsv
  | emptyDict
  | metricsDict (m : Metrics)
deriving DecidableEq

/-- Return value and resulting file system of one call. -/
structure TrainOutcome where
  ret : TrainReturn
  files : TrainFiles
deriving DecidableEq

/-- text_classifier.py lines 100-109: the skip gate — not forced, a
trained artifact exists, and fewer than `min_new` articles arrived since
`article_count` was last persisted. -/
def skipsTraining (force : Bool) (min_new : Int) (contents : List String)
    (files : TrainFiles) : Prop :=
  force = false ∧ files.classifierPkl.isSome = true ∧
    (contents.length : Int) -
      ((files.stateJson.bind TrainState.article_count).getD 0) < min_new

instance (force : Bool) (min_new : Int) (contents : List String)
    (files : TrainFiles) :
    Decidable (skipsTraining force min_new contents files) := by
  rw [skipsTraining]; infer_instance

/-- text_classifier.py lines 84-204: `train_classifier`.  `csv` is the
article contents column (`none` = no articles.csv, Python returns
`None`); on a retrain, labels are auto-assigned, encoded against the
sorted distinct classes, samples in classes with fewer than 2 members
are dropped, the model is fitted (opaque: `fitModelId`, `train_acc`,
`test_acc`) and the classifier, the label space, and
`{article_count: len(df-after-filter), metrics}` are persisted. -/
def train_classifier (force : Bool) (min_new : Int)
    (csv : Option (List String)) (files : TrainFiles) (fitModelId : Nat)
    (train_acc test_acc : ℚ) : TrainOutcome :=
  match csv with
  | none => { ret := TrainReturn.noCsv, files := files }
  | some contents =>
    if skipsTraining force min_new contents files then
      { ret := match files.stateJson.bind TrainState.metrics with
          | some m => TrainReturn.metricsDict m
          | none => TrainReturn.emptyDict,
        files := files }
    else
      let cats := contents.map auto_label_article
      let classes := encoderClasses cats
      let labels := cats.map (fun c => classes.indexOf c)
      let kept := ((contents.zip labels).filter
        (fun p => 2 ≤ labels.count p.2)).map Prod.fst
      { ret := TrainReturn.metricsDict ⟨train_acc, test_acc⟩,
        files := { classifierPkl := some ⟨fitModelId, classes⟩,
                   labelsJson := some ⟨classes⟩,
                   stateJson := some ⟨some (kept.length : Int),
                     some ⟨train_acc, test_acc⟩⟩ } }

/-- C7: with force = false, a persisted classifier present and fewer
than `min_new` new articles since the persisted count, the call returns
the previously persisted metrics and the three files are exactly as
before. -/
theorem C7_skip_is_pure (min_new : Int) (contents : List String)
    (files : TrainFiles) (fitModelId : Nat) (train_acc test_acc : ℚ)
    (cf : ClassifierFile) (st : TrainState) (n : Int) (m : Metrics)
    (hcf : files.classifierPkl = some cf) (hst : files.stateJson = some st)
    (hn : st.article_count = some n) (hm : st.metrics = some m)
    (hlt : (contents.length : Int) - n < min_new) :
    train_classifier false min_new (some contents) files fitModelId
        train_acc test_acc =
      { ret := TrainReturn.metricsDict m, files := files } := by
  have hskip : skipsTraining false min_new contents files := by
    refine ⟨rfl, by rw [hcf]; rfl, ?_⟩
    rw [hst]
    simpa [hn] using hlt
  simp only [train_classifier]
  rw [if_pos hskip, hst]
  simp [hm]

/-- C7 witness: 1 article, 100 persisted, threshold 50 — the call is a
no-op returning the stored metrics. -/
theorem C7_skip_is_pure_witness :
    train_classifier false 50 (some ["x"])
        ⟨some ⟨0, []⟩, none, some ⟨some 100, some ⟨1, 1⟩⟩⟩ 0 1 1 =
      { ret := TrainReturn.metricsDict ⟨1, 1⟩,
        files := ⟨some ⟨0, []⟩, none, some ⟨some 100, some ⟨1, 1⟩⟩⟩ } :=
  C7_skip_is_pure 50 ["x"] ⟨some ⟨0, []⟩, none, some ⟨some 100, some ⟨1, 1⟩⟩⟩
    0 1 1 ⟨0, []⟩ ⟨some 100, some ⟨1, 1⟩⟩ 100 ⟨1, 1⟩ rfl rfl rfl rfl (by decide)

/-- Zipping a list with its own image collapses to one map. -/
theorem zip_map_self {α β : Type} (g : α → β) (l : List α) :
    l.zip (l.map g) = l.map (fun a => (a, g a)) := by
  induction l with
  | nil => rfl
  | cons a t ih => simp [ih]

/-- Every category a row receives is one of the encoder's classes. -/
theorem mem_encoderClasses (cats : List String) (c : String) (hc : c ∈ cats) :
    c ∈ encoderClasses cats := by
  rw [encoderClasses]
  exact ((List.perm_insertionSort _ _).mem_iff).mpr (List.mem_dedup.mpr hc)

/-- Counting an encoded label is counting the category: `indexOf` into
the class list is injective on members. -/
theorem count_encoded_label (cats : List String) (c : String) (hc : c ∈ cats) :
    (cats.map (fun x => (encoderClasses cats).indexOf x)).count
      ((encoderClasses cats).indexOf c) = cats.count c := by
  rw [List.count_eq_countP, List.countP_map, List.count_eq_countP]
  refine List.countP_congr ?_
  intro x hx
  simp only [Function.comp]
  by_cases hxc : x = c
  · subst hxc; simp
  · have hix : (encoderClasses cats).indexOf x ≠
        (encoderClasses cats).indexOf c := fun heq =>
      hxc ((List.indexOf_inj (mem_encoderClasses cats x hx)
        (mem_encoderClasses cats c hc)).mp heq)
    rw [beq_eq_false_iff_ne.mpr hix, beq_eq_false_iff_ne.mpr hxc]

/-- The `valid_mask` filter, restated row by row: a row survives iff its
auto-assigned category occurs at least twice in the corpus. -/
theorem trainKept_eq_filter (contents : List String) :
    (((contents.zip ((contents.map auto_label_article).map
        (fun c => (encoderClasses (contents.map auto_label_article)).indexOf c))).filter
      (fun p => 2 ≤ ((contents.map auto_label_article).map
        (fun c => (encoderClasses (contents.map auto_label_article)).indexOf c)).count
          p.2)).map Prod.fst) =
    contents.filter (fun t =>
      2 ≤ (contents.map auto_label_article).count (auto_label_article t)) := by
  have hlabels : (contents.map auto_label_article).map
      (fun c => (encoderClasses (contents.map auto_label_article)).indexOf c) =
      contents.map (fun t => (encoderClasses (contents.map auto_label_article)).indexOf
        (auto_label_article t)) := by
    rw [List.map_map]
    rfl
  rw [hlabels, zip_map_self, List.filter_map, List.map_map]
  have hid : (Prod.fst ∘ fun t : String =>
      (t, (encoderClasses (contents.map auto_label_article)).indexOf
        (auto_label_article t))) = id := rfl
  rw [hid, List.map_id]
  refine List.filter_congr ?_
  intro t ht
  have hcount : (contents.map (fun t =>
      (encoderClasses (contents.map auto_label_article)).indexOf
        (auto_label_article t))).count
      ((encoderClasses (contents.map auto_label_article)).indexOf
        (auto_label_article t)) =
      (contents.map auto_label_article).count (auto_label_article t) := by
    have := count_encoded_label (contents.map auto_label_article)
      (auto_label_article t) (List.mem_map_of_mem auto_label_article ht)
    rw [← this, List.map_map]
    rfl
  simp only [Function.comp]
  rw [hcount]

/-- C8 (amended): every retraining run persists
`articleCountAtLastTrain` equal to the number of rows surviving the
<2-members class filter — the rows whose auto-assigned category occurs
at least twice in the corpus — together with the run's metrics; that
number equals `currentArticleCount` exactly when no category is a
singleton.  (The unamended claim fails when a category has exactly one
member, see the counterexample.) -/
theorem C8_state_after_retrain (force : Bool) (min_new : Int)
    (contents : List String) (files : TrainFiles) (fitModelId : Nat)
    (train_acc test_acc : ℚ)
    (h : ¬ skipsTraining force min_new contents files) :
    (train_classifier force min_new (some contents) files fitModelId
        train_acc test_acc).files.stateJson =
      some ⟨some ((contents.filter (fun t =>
          2 ≤ (contents.map auto_label_article).count
            (auto_label_article t))).length : Int),
        some ⟨train_acc, test_acc⟩⟩ ∧
    ((∀ t ∈ contents,
        2 ≤ (contents.map auto_label_article).count (auto_label_article t)) →
      (contents.filter (fun t =>
          2 ≤ (contents.map auto_label_article).count
            (auto_label_article t))).length = contents.length) := by
  constructor
  · simp only [train_classifier]
    rw [if_neg h]
    simp only [trainKept_eq_filter contents]
  · intro hall
    have : contents.filter (fun t =>
        2 ≤ (contents.map auto_label_article).count (auto_label_article t)) =
        contents := by
      rw [List.filter_eq_self]
      intro t ht
      exact decide_eq_true (hall t ht)
    rw [this]

/-- C8 witness: two identical "brent" rows — no singleton class, so the
persisted count is the full corpus size 2. -/
theorem C8_state_after_retrain_witness :
    ((train_classifier true 50 (some ["brent", "brent"]) ⟨none, none, none⟩
        0 1 1).files.stateJson =
      some ⟨some (((["brent", "brent"] : List String).filter (fun t =>
          2 ≤ ((["brent", "brent"] : List String).map auto_label_article).count
            (auto_label_article t))).length : Int),
        some ⟨1, 1⟩⟩) ∧
    ((∀ t ∈ (["brent", "brent"] : List String),
        2 ≤ ((["brent", "brent"] : List String).map auto_label_article).count
          (auto_label_article t)) →
      ((["brent", "brent"] : List String).filter (fun t =>
          2 ≤ ((["brent", "brent"] : List String).map auto_label_article).count
            (auto_label_article t))).length =
        (["brent", "brent"] : List String).length) :=
  C8_state_after_retrain true 50 ["brent", "brent"] ⟨none, none, none⟩ 0 1 1
    (fun h => Bool.noConfusion h.1)

/-- C8 counterexample: a 3-article corpus in which "brent" is the only
`price_market` row; the singleton class is dropped, the persisted
`article_count` is 2, not the store's 3 rows. -/
theorem C8_counterexample_filtered_count :
    ((train_classifier true 50 (some ["", "", "brent"]) ⟨none, none, none⟩
        0 1 1).files.stateJson = some ⟨some 2, some ⟨1, 1⟩⟩) ∧
    (["", "", "brent"] : List String).length = 3 := by
  constructor
  · with_unfolding_all rfl
  · rfl

/-! ## Artifact loading and the query-time error paths
(`OilGasChatbot.load_models` / `classify_query`, chatbot.py lines 34-81
and 207-228).  A persisted file is absent, present with decodable
content, or corrupt; `pickle.load` / `json.load` on a corrupt file
raises, and `load_models` wraps none of its loads in try/except, so the
exception escapes — modelled with `Except`. -/

/-- A persisted artifact file on disk. -/
inductive FileState (α : Type)
  | absent
  | corrupt
  | present (a : α)
deriving DecidableEq

/-- Decoded `embeddings.pkl`: the `embeddings` key may be absent
(`data.get('embeddings', np.array([]))`). -/
structure EmbeddingsFile where
  embeddings : Option (List Vec)
deriving DecidableEq

/-- Decoded `classifier.pkl`: `data.get('classifier')` (opaque model
stand-in) and `data.get('label_encoder')`. -/
structure ClassifierPickle where
  classifier : Option Nat
  label_encoder : Option (List String)
deriving DecidableEq

/-- chatbot.py lines 52-59: load the embedding matrix — a missing file
is an empty array, a corrupt file raises out of `pickle.load`. -/
def loadEmbeddingsFile : FileState EmbeddingsFile → Except String (List Vec)
  | FileState.absent => Except.ok []
  | FileState.corrupt => Except.error "embeddings.pkl: invalid load"
  | FileState.present d => Except.ok (d.embeddings.getD [])

/-- chatbot.py lines 61-71: load the classifier — a missing file leaves
it `None`, a corrupt file raises. -/
def loadClassifierFile : FileState ClassifierPickle → Except String (Option Nat)
  | FileState.absent => Except.ok none
  | FileState.corrupt => Except.error "classifier.pkl: invalid load"
  | FileState.present d => Except.ok d.classifier

/-- chatbot.py lines 73-78: load the entity file — missing means `{}`,
corrupt raises out of `json.load`. -/
def loadEntitiesFile : FileState Unit → Except String Unit
  | FileState.absent => Except.ok ()
  | FileState.corrupt => Except.error "entities.json: invalid load"
  | FileState.present _ => Except.ok ()

/-- The chatbot's in-memory state after a successful `load_models`. -/
structure BotState where
  articles : List Article
  embeddings : List Vec
  classifier : Option Nat
deriving DecidableEq

/-- chatbot.py lines 34-81: `load_models` — articles.csv missing gives
an empty store; each artifact load may raise and nothing catches it. -/
def load_models (csv : Option (List Article)) (emb : FileState EmbeddingsFile)
    (clf : FileState ClassifierPickle) (ent : FileState Unit) :
    Except String BotState := do
  let embeddings ← loadEmbeddingsFile emb
  let classifier ← loadClassifierFile clf
  let _ ← loadEntitiesFile ent
  return ⟨csv.getD [], embeddings, classifier⟩

/-- chatbot.py lines 83-92: `search_articles` as called on a bot that
may still have to load its models (`if not self.loaded:
self.load_models()`); `simsOf` is the opaque embed+cosine pipeline
applied to the stored embedding matrix. -/
def search_articles_entry (loaded : Option BotState)
    (csv : Option (List Article)) (emb : FileState EmbeddingsFile)
    (clf : FileState ClassifierPickle) (ent : FileState Unit)
    (simsOf : List Vec → List ℚ) (now : Int) (query : String)
    (top_k : Nat) : Except String (List ResultRecord) :=
  match loaded with
  | some st =>
    Except.ok (search_articles st.articles (simsOf st.embeddings) now query top_k)
  | none =>
    match load_models csv emb clf ent with
    | Except.error e => Except.error e
    | Except.ok st =>
      Except.ok (search_articles st.articles (simsOf st.embeddings) now query top_k)

/-- chatbot.py lines 207-228: `classify_query` — `if not
self.classifier` returns the default immediately, and the whole
prediction (encode, predict_proba, label lookup: the `predictResult`
parameter) sits in a try/except returning the same default. -/
def classify_query (classifier : Option Nat)
    (predictResult : Except Unit (String × ℚ)) : String × ℚ :=
  match classifier with
  | none => ("general", 1/2)
  | some _ =>
    match predictResult with
    | Except.error _ => ("general", 1/2)
    | Except.ok c => c

/-- C10: with no classifier loaded, or with any exception raised during
prediction, `classify_query` returns exactly
`{'category': 'general', 'confidence': 0.5}`; being a total function of
its inputs it never raises. -/
theorem C10_classify_query_fallback :
    (∀ predictResult : Except Unit (String × ℚ),
      classify_query none predictResult = ("general", 1/2)) ∧
    (∀ classifier : Option Nat,
      classify_query classifier (Except.error ()) = ("general", 1/2)) := by
  constructor
  · intro predictResult
    rfl
  · intro classifier
    cases classifier with
    | none => rfl
    | some m => rfl

/-- C9 (amended): a missing artifact file is treated as empty and
`load_models` succeeds; but a corrupt embeddings pickle makes
`load_models`, and hence `search_articles` on a not-yet-loaded bot,
raise — the error does propagate to the query path; `classify_query`,
which performs no loading, still returns its default normally. -/
theorem C9_corrupt_artifact_load (csv : Option (List Article))
    (simsOf : List Vec → List ℚ) (now : Int) (query : String) (top_k : Nat) :
    (load_models csv FileState.absent FileState.absent FileState.absent =
      Except.ok ⟨csv.getD [], [], none⟩) ∧
    (∀ (clf : FileState ClassifierPickle) (ent : FileState Unit), ∃ e,
      load_models csv FileState.corrupt clf ent = Except.error e ∧
      search_articles_entry none csv FileState.corrupt clf ent simsOf now
        query top_k = Except.error e) ∧
    (∀ predictResult : Except Unit (String × ℚ),
      classify_query none predictResult = ("general", 1/2)) := by
  refine ⟨rfl, ?_, fun _ => rfl⟩
  intro clf ent
  exact ⟨"embeddings.pkl: invalid load", rfl, rfl⟩

/-- C9 counterexample: with a corrupt `embeddings.pkl` on disk, the load
raises and `search_articles` on an unloaded bot propagates the error to
its caller instead of returning normally. -/
theorem C9_counterexample_corrupt_propagates :
    load_models none FileState.corrupt FileState.absent FileState.absent =
      Except.error "embeddings.pkl: invalid load" ∧
    search_articles_entry none none FileState.corrupt FileState.absent
        FileState.absent (fun _ => []) 0 "oil prices" 5 =
      Except.error "embeddings.pkl: invalid load" :=
  ⟨rfl, rfl⟩

end OGC
